import Mathlib

/-!
Verification development for the planck-emulator 65C02 core
(`src/computer.rs`, `src/computer/decode.rs`).

Shallow embedding conventions:
* `u8`/`u16`/`u32` values are `Nat`s; wrapping arithmetic is written with an
  explicit `% 256`, `% 65536`, `% 4294967296` exactly where the Rust source
  uses `wrapping_add` / truncating casts / shifts that drop bits.  Plain Rust
  `+` on in-range values is plain `Nat` addition.
* The `u128` cycle counter is advanced through `clock_add`, which keeps the
  architectural wraparound explicit.
* Bitwise `!x` on `u8` is `255 ^^^ x` (exact for `x < 256`).
* The 64KB address space is a total function `Nat → Nat`; the separate
  definitions `mkAddrSpace` / `writeData` model the construction and raw
  update of the underlying `Vec<u8>` for the bounds properties.
* `Vec` indexing of the disk image panics when out of range in Rust; here it
  is `List.getD _ 0` / `List.set`, and every property below only evaluates it
  at indices the hypotheses keep in range.
* Channel sends (`tx.send`) and logging (`add_info` at `log_level = 0`) have
  no effect on the modelled state and are omitted.
-/

namespace Planck

/-- Addressing modes, as in `computer.rs` (`AdressingMode`, source spelling kept). -/
inductive AdressingMode where
  | Immediate
  | ZeroPage
  | ZeroPageX
  | Absolute
  | AbsoluteX
  | AbsoluteY
  | IndirectX
  | IndirectY
  | Indirect
  | ZeroPageY
  | Accumulator
  | ZeroPageIndirect
  | None
deriving DecidableEq, Repr

/-- Disk-controller commands (`DiskCommand` in `computer.rs`). -/
inductive DiskCommand where
  | Read
  | Write
  | None
deriving DecidableEq, Repr

/-- The register file (`Processor` in `computer.rs`). -/
structure Processor where
  flags : Nat
  acc : Nat
  rx : Nat
  ry : Nat
  pc : Nat
  sp : Nat
  clock : Nat
  inst : Nat

/-- The machine state (`Computer` in `computer.rs`), restricted to the fields
the emulation core reads or writes (channels and log state omitted). -/
structure Computer where
  processor : Processor
  paused : Bool
  lba : Nat
  disk_cnt : Nat
  command : DiskCommand
  data : Nat → Nat
  disk : List Nat

def FLAG_C : Nat := 1
def FLAG_Z : Nat := 2
def FLAG_I : Nat := 4
def FLAG_D : Nat := 8
def FLAG_O : Nat := 0x40
def FLAG_N : Nat := 0x80

def CF_ADDRESS : Nat := 0xFFD0

/-- Wrapping add on the `u128` cycle counter. -/
def clock_add (clk n : Nat) : Nat := (clk + n) % (2 ^ 128)

/-- Translation of `Computer::set_flags`: Zero from `val == 0`, Negative from bit 7 of `val`,
and the two always-on bits 4/5 forced; other flags untouched. -/
def set_flags (flags val : Nat) : Nat :=
  let f1 := if val = 0 then flags ||| (FLAG_Z &&& (255 ^^^ FLAG_N))
            else flags &&& (255 ^^^ FLAG_Z)
  let f2 := if val >>> 7 = 1 then f1 ||| FLAG_N else f1 &&& (255 ^^^ FLAG_N)
  f2 ||| 0x30

/-- Translation of `decode::get_opcode_name`. -/
def get_opcode_name (opcode : Nat) : String :=
  let cc := opcode &&& 3
  let aaa := (opcode >>> 5) &&& 7
  if opcode = 0x02 then "NOP2"
  else if opcode = 0x04 then "TSB"
  else if opcode = 0x0C then "TSB"
  else if opcode = 0x12 then "ORA"
  else if opcode = 0x14 then "TRB"
  else if opcode = 0x32 then "AND"
  else if opcode = 0x52 then "EOR"
  else if opcode = 0x72 then "ADC"
  else if opcode = 0x92 then "STA"
  else if opcode = 0xB2 then "LDA"
  else if opcode = 0xD2 then "CMP"
  else if opcode = 0xF2 then "SBC"
  else if opcode = 0x22 ∨ opcode = 0x42 ∨ opcode = 0x62 ∨ opcode = 0x82 ∨
          opcode = 0xC2 ∨ opcode = 0xE2 ∨ opcode = 0x44 ∨ opcode = 0x54 ∨
          opcode = 0xD4 ∨ opcode = 0xF4 then "NOP2"
  else if opcode = 0x1C then "TRB"
  else if opcode = 0x5C ∨ opcode = 0xDC ∨ opcode = 0xFC then "NOP3"
  else if opcode = 0x10 then "BPL"
  else if opcode = 0x30 then "BMI"
  else if opcode = 0x50 then "BVC"
  else if opcode = 0x70 then "BVS"
  else if opcode = 0x90 then "BCC"
  else if opcode = 0xB0 then "BCS"
  else if opcode = 0xD0 then "BNE"
  else if opcode = 0xF0 then "BEQ"
  else if opcode = 0x7C then "JMP"
  else if opcode = 0x5A then "PHY"
  else if opcode = 0x1A then "INC"
  else if opcode = 0x3A then "DEC"
  else if opcode = 0x7A then "PLY"
  else if opcode = 0xDA then "PHX"
  else if opcode = 0xFA then "PLX"
  else if opcode = 0x80 then "BRA"
  else if opcode = 0x00 then "BRK"
  else if opcode = 0x20 then "JSR"
  else if opcode = 0x40 then "RTI"
  else if opcode = 0x60 then "RTS"
  else if opcode = 0x08 then "PHP"
  else if opcode = 0x28 then "PLP"
  else if opcode = 0x48 then "PHA"
  else if opcode = 0x68 then "PLA"
  else if opcode = 0x88 then "DEY"
  else if opcode = 0xA8 then "TAY"
  else if opcode = 0xC8 then "INY"
  else if opcode = 0xE8 then "INX"
  else if opcode = 0x18 then "CLC"
  else if opcode = 0x38 then "SEC"
  else if opcode = 0x58 then "CLI"
  else if opcode = 0x78 then "SEI"
  else if opcode = 0x98 then "TYA"
  else if opcode = 0xB8 then "CLV"
  else if opcode = 0xD8 then "CLD"
  else if opcode = 0xF8 then "SED"
  else if opcode = 0x8A then "TXA"
  else if opcode = 0x9A then "TXS"
  else if opcode = 0xAA then "TAX"
  else if opcode = 0xBA then "TSX"
  else if opcode = 0xCA then "DEX"
  else if opcode = 0xEA then "NOP"
  else if opcode = 0x0F then "BBR0"
  else if opcode = 0x1F then "BBR1"
  else if opcode = 0x2F then "BBR2"
  else if opcode = 0x3F then "BBR3"
  else if opcode = 0x4F then "BBR4"
  else if opcode = 0x5F then "BBR5"
  else if opcode = 0x6F then "BBR6"
  else if opcode = 0x7F then "BBR7"
  else if opcode = 0x8F then "BBS0"
  else if opcode = 0x9F then "BBS1"
  else if opcode = 0xAF then "BBS2"
  else if opcode = 0xBF then "BBS3"
  else if opcode = 0xCF then "BBS4"
  else if opcode = 0xDF then "BBS5"
  else if opcode = 0xEF then "BBS6"
  else if opcode = 0xFF then "BBS7"
  else if opcode = 0x64 ∨ opcode = 0x9C ∨ opcode = 0x74 ∨ opcode = 0x9E then "STZ"
  else if opcode = 0x89 then "BIT"
  else if cc = 0 then
    if aaa = 1 then "BIT"
    else if aaa = 2 then "JMP"
    else if aaa = 3 then "JMP"
    else if aaa = 4 then "STY"
    else if aaa = 5 then "LDY"
    else if aaa = 6 then "CPY"
    else if aaa = 7 then "CPX"
    else ""
  else if cc = 1 then
    if aaa = 0 then "ORA"
    else if aaa = 1 then "AND"
    else if aaa = 2 then "EOR"
    else if aaa = 3 then "ADC"
    else if aaa = 4 then "STA"
    else if aaa = 5 then "LDA"
    else if aaa = 6 then "CMP"
    else if aaa = 7 then "SBC"
    else ""
  else if cc = 2 then
    if aaa = 0 then "ASL"
    else if aaa = 1 then "ROL"
    else if aaa = 2 then "LSR"
    else if aaa = 3 then "ROR"
    else if aaa = 4 then "STX"
    else if aaa = 5 then "LDX"
    else if aaa = 6 then "DEC"
    else if aaa = 7 then "INC"
    else ""
  else ""

/-- Translation of `decode::get_adressing_mode`. -/
def get_adressing_mode (opcode : Nat) : AdressingMode :=
  let bbb := (opcode >>> 2) &&& 7
  let cc := opcode &&& 3
  if opcode = 0x6C then .Indirect
  else if opcode = 0x4C then .Absolute
  else if opcode = 0x7C then .IndirectX
  else if opcode = 0x89 then .Immediate
  else if opcode = 0x1A ∨ opcode = 0x3A then .Accumulator
  else if opcode = 0x64 ∨ opcode = 0x14 ∨ opcode = 0x04 then .ZeroPage
  else if opcode = 0x9C ∨ opcode = 0x1C ∨ opcode = 0x0C then .Absolute
  else if opcode = 0x74 then .ZeroPageX
  else if opcode = 0x12 ∨ opcode = 0x32 ∨ opcode = 0x52 ∨ opcode = 0x72 ∨
          opcode = 0x92 ∨ opcode = 0xB2 ∨ opcode = 0xD2 ∨ opcode = 0xF2 then .ZeroPageIndirect
  else if opcode = 0x9E then .AbsoluteX
  else if cc = 0 then
    if bbb = 0 then .Immediate
    else if bbb = 1 then .ZeroPage
    else if bbb = 3 then .Absolute
    else if bbb = 5 then .ZeroPageX
    else if bbb = 7 then .AbsoluteX
    else .None
  else if cc = 1 then
    if bbb = 0 then .IndirectX
    else if bbb = 1 then .ZeroPage
    else if bbb = 2 then .Immediate
    else if bbb = 3 then .Absolute
    else if bbb = 4 then .IndirectY
    else if bbb = 5 then .ZeroPageX
    else if bbb = 6 then .AbsoluteY
    else if bbb = 7 then .AbsoluteX
    else .None
  else if cc = 2 then
    if bbb = 0 then .Immediate
    else if bbb = 1 then .ZeroPage
    else if bbb = 2 then .Accumulator
    else if bbb = 3 then .Absolute
    else if bbb = 5 then
      if get_opcode_name opcode = "STX" ∨ get_opcode_name opcode = "LDX" then .ZeroPageY
      else .ZeroPageX
    else if bbb = 7 then
      if get_opcode_name opcode = "LDX" then .AbsoluteY else .AbsoluteX
    else .None
  else .None

/-- Common tail of `Computer::read`: the serial-input mailbox at `0xFFE0`
(read clears the data-ready flag at `0xFFE1` and the byte itself), else flat
storage. -/
def Computer.read_tail (c : Computer) (addr : Nat) : Nat × Computer :=
  if addr = 0xFFE0 then
    let v := c.data 0xFFE0
    (v, { c with data := fun a => if a = 0xFFE0 then 0 else if a = 0xFFE1 then 0 else c.data a })
  else (c.data addr, c)

/-- Translation of `Computer::read`: disk-controller registers 0 and 7 are intercepted while a
disk image is attached; every other address (including registers 1-6, which
fall through in the source) reaches the common tail. -/
def Computer.read (c : Computer) (addr : Nat) : Nat × Computer :=
  if 0 < c.disk.length ∧ CF_ADDRESS ≤ addr ∧ addr < CF_ADDRESS + 0x10 then
    let reg := addr &&& 7
    if reg = 0 then
      if c.command = DiskCommand.Read then
        let v := c.disk.getD ((c.lba * 512 + c.disk_cnt) % 4294967296) 0
        let cnt := c.disk_cnt + 1
        let cmd := if 512 < cnt then DiskCommand.None else c.command
        (v, { c with disk_cnt := cnt, command := cmd })
      else (0, c)
    else if reg = 7 then
      ((if c.command ≠ DiskCommand.None then 0x58 else 0x50), c)
    else c.read_tail addr
  else c.read_tail addr

/-- Disk command decoding done by `Computer::write` on register 7
(`DiskCommand::try_from`, with `Err` mapped to `None`). -/
def diskCommandOf (v : Nat) : DiskCommand :=
  if v = 0x20 then .Read else if v = 0x30 then .Write else .None

/-- Translation of `Computer::write`: disk-controller register effects while a disk image is
attached, then the unconditional flat-storage store that ends the function.
The serial-output branch at `0xFFE0` only emits a channel message. -/
def Computer.write (c : Computer) (addr value : Nat) : Computer :=
  let c1 :=
    if 0 < c.disk.length ∧ CF_ADDRESS ≤ addr ∧ addr < CF_ADDRESS + 0x10 then
      let reg := addr &&& 7
      if reg = 0 then
        if c.command = DiskCommand.Write then
          let disk := c.disk.set ((c.lba * 512 + c.disk_cnt) % 4294967296) value
          let cnt := c.disk_cnt + 1
          let cmd := if 512 < cnt then DiskCommand.None else c.command
          { c with disk := disk, disk_cnt := cnt, command := cmd }
        else c
      else if reg = 2 then c
      else if reg = 3 then { c with lba := (c.lba &&& 0xFFFFFF00) ||| value }
      else if reg = 4 then { c with lba := (c.lba &&& 0xFFFF00FF) ||| (value <<< 8) }
      else if reg = 5 then { c with lba := (c.lba &&& 0xFF00FFFF) ||| (value <<< 16) }
      else if reg = 6 then { c with lba := (c.lba &&& 0x00FFFFFF) ||| ((value <<< 24) &&& 0xF) }
      else if reg = 7 then
        let cmd := diskCommandOf value
        { c with command := cmd, disk_cnt := if cmd ≠ DiskCommand.None then 0 else c.disk_cnt }
      else c
    else c
  { c1 with data := fun a => if a = addr then value else c1.data a }

/-- Translation of `Computer::get_word`: little-endian 16-bit fetch through the bus, the high
byte at `address.wrapping_add(1)`. -/
def Computer.get_word (c : Computer) (address : Nat) : Nat × Computer :=
  let r1 := c.read address
  let r2 := r1.2.read ((address + 1) % 65536)
  (r1.1 + (r2.1 <<< 8), r2.2)

/-- Translation of `Computer::reset`. -/
def Computer.reset (c : Computer) : Computer :=
  let c1 := { c with
    paused := true
    lba := 0
    processor := { c.processor with clock := 0 }
    disk_cnt := 0
    command := DiskCommand.None }
  let r := c1.get_word 0xFFFC
  { r.2 with processor := { r.2.processor with pc := r.1 }, paused := false }

/-- Translation of `Computer::get_ld_adddr` (source spelling kept). -/
def Computer.get_ld_adddr (c : Computer) (addressing_mode : AdressingMode) : Nat × Computer :=
  match addressing_mode with
  | .Immediate => (c.processor.pc + 1, c)
  | .Absolute => c.get_word (c.processor.pc + 1)
  | .AbsoluteX =>
      let r := c.get_word (c.processor.pc + 1)
      ((r.1 + r.2.processor.rx) % 65536, r.2)
  | .AbsoluteY =>
      let r := c.get_word (c.processor.pc + 1)
      ((r.1 + r.2.processor.ry) % 65536, r.2)
  | .ZeroPage =>
      let r := c.read (c.processor.pc + 1)
      (r.1, r.2)
  | .ZeroPageY =>
      let r := c.read (c.processor.pc + 1)
      ((r.1 + r.2.processor.ry) % 256, r.2)
  | .ZeroPageX =>
      let r := c.read (c.processor.pc + 1)
      ((r.1 + r.2.processor.rx) % 256, r.2)
  | .IndirectY =>
      let r := c.read (c.processor.pc + 1)
      let w := r.2.get_word r.1
      ((w.1 + w.2.processor.ry) % 65536, w.2)
  | .IndirectX =>
      let r := c.read (c.processor.pc + 1)
      let w := r.2.get_word ((r.1 + r.2.processor.rx) % 256)
      (w.1, w.2)
  | .Accumulator => (0, c)
  | .ZeroPageIndirect =>
      let r := c.read (c.processor.pc + 1)
      let w := r.2.get_word r.1
      (w.1, w.2)
  | _ => (0, { c with paused := true })

/-- Translation of `Computer::after_logical_op`: program-counter and clock advance shared by
the logical/arithmetic instructions. -/
def Computer.after_logical_op (c : Computer) : Computer :=
  let mode := get_adressing_mode c.processor.inst
  if mode = .Immediate then
    { c with processor := { c.processor with
        pc := (c.processor.pc + 2) % 65536
        clock := clock_add c.processor.clock 2 } }
  else if mode = .ZeroPage ∨ mode = .ZeroPageX then
    { c with processor := { c.processor with
        pc := (c.processor.pc + 2) % 65536
        clock := clock_add c.processor.clock 3 } }
  else if mode = .IndirectX ∨ mode = .IndirectY then
    { c with processor := { c.processor with
        pc := (c.processor.pc + 2) % 65536
        clock := clock_add c.processor.clock 6 } }
  else if mode = .Absolute ∨ mode = .AbsoluteX ∨ mode = .AbsoluteY then
    { c with processor := { c.processor with
        pc := (c.processor.pc + 3) % 65536
        clock := clock_add c.processor.clock 4 } }
  else c

/-- Translation of `Computer::do_add`: the shared binary-mode adder; returns the 8-bit sum
and updates Zero/Negative (via `set_flags`), Carry and Overflow. -/
def Computer.do_add (c : Computer) (val : Nat) : Nat × Computer :=
  let acc := c.processor.acc
  let s := acc + val + (c.processor.flags &&& FLAG_C)
  let carry := 255 < s
  let sum := (acc + val + (c.processor.flags &&& FLAG_C)) % 256
  let f1 := set_flags c.processor.flags sum
  let f2 := if carry then f1 ||| FLAG_C else f1 &&& (255 ^^^ FLAG_C)
  let f3 := if (acc ^^^ sum) &&& (val ^^^ sum) &&& 0x80 ≠ 0 then f2 ||| FLAG_O
            else f2 &&& (255 ^^^ FLAG_O)
  (sum, { c with processor := { c.processor with flags := f3 } })

/-- Translation of `Computer::adc`: decimal branch with the BCD nibble corrections, else
`do_add`; accumulator then `after_logical_op`. -/
def Computer.adc (c0 : Computer) : Computer :=
  let mode := get_adressing_mode c0.processor.inst
  let r := c0.get_ld_adddr mode
  let rv := r.2.read r.1
  let val := rv.1
  let c := rv.2
  let acc := c.processor.acc
  let decimal := c.processor.flags &&& FLAG_D ≠ 0
  let sc : Nat × Computer :=
    if decimal then
      let ln0 := (acc &&& 0xF) + (val &&& 0xF) + (c.processor.flags &&& FLAG_C)
      let ln := if 9 < ln0 then 0x10 ||| ((ln0 + 6) &&& 0xF) else ln0
      let hn := (acc &&& 0xF0) + (val &&& 0xF0)
      let s0 := hn + ln
      let f0 := c.processor.flags
      if 160 ≤ s0 then
        let f1 := f0 ||| FLAG_C
        let f2 := if f1 &&& FLAG_O ≠ 0 ∧ 0x180 ≤ s0 then f1 &&& (255 ^^^ FLAG_O) else f1
        let sum := (s0 + 0x60) % 256
        let f3 := set_flags f2 sum
        (sum, { c with processor := { c.processor with flags := f3 } })
      else
        let f1 := f0 &&& (255 ^^^ FLAG_C)
        let f2 := if f1 &&& FLAG_O ≠ 0 ∧ s0 < 0x80 then f1 &&& (255 ^^^ FLAG_O) else f1
        let sum := s0 % 256
        let f3 := set_flags f2 sum
        (sum, { c with processor := { c.processor with flags := f3 } })
    else c.do_add val
  let c1 := sc.2
  let c2 := { c1 with processor := { c1.processor with acc := sc.1 } }
  c2.after_logical_op

/-- Translation of `Computer::sbc`: decimal branch with the BCD borrow corrections (the `u8`
and `u16` subtractions that can underflow in Rust are written with their
wraparound explicit), else `do_add` of the complemented operand. -/
def Computer.sbc (c0 : Computer) : Computer :=
  let mode := get_adressing_mode c0.processor.inst
  let r := c0.get_ld_adddr mode
  let rv := r.2.read r.1
  let val := rv.1
  let c := rv.2
  let acc := c.processor.acc
  let decimal := c.processor.flags &&& FLAG_D ≠ 0
  let sc : Nat × Computer :=
    if decimal then
      let f0 := c.processor.flags
      let tmp0 := 0xF + (acc &&& 0xF) - (val &&& 0xF) + (f0 &&& FLAG_C)
      let wt : Nat × Nat :=
        if tmp0 < 0x10 then (0, (tmp0 + 256 - 6) % 256)
        else (0x10, (tmp0 + 256 - 0x10) % 256)
      let w1 := wt.1 + 0xF0 + (acc &&& 0xF0) - (val &&& 0xF0)
      let fw : Nat × Nat :=
        if w1 < 0x100 then
          let f1 := f0 &&& (255 ^^^ FLAG_C)
          let f2 := if f1 &&& FLAG_O ≠ 0 ∧ w1 < 0x80 then f1 &&& (255 ^^^ FLAG_O) else f1
          (f2, (w1 + 65536 - 0x60) % 65536)
        else
          let f1 := f0 ||| FLAG_C
          let f2 := if f1 &&& FLAG_O ≠ 0 ∧ 0x180 ≤ w1 then f1 &&& (255 ^^^ FLAG_O) else f1
          (f2, w1)
      let w2 := (fw.2 + wt.2) % 65536
      (w2 % 256, { c with processor := { c.processor with flags := fw.1 } })
    else c.do_add (255 ^^^ val)
  let c1 := sc.2
  let c2 := { c1 with processor := { c1.processor with acc := sc.1 } }
  c2.after_logical_op

/-- Translation of `Computer::rol`: for `Accumulator` and (as written in the source) also for
`Absolute`/`AbsoluteX` the rotated value is the accumulator; only the final
`else` branch reads the effective address. -/
def Computer.rol (c0 : Computer) : Computer :=
  let mode := get_adressing_mode c0.processor.inst
  let r := c0.get_ld_adddr mode
  let addr := r.1
  let c := r.2
  let vc : Nat × Computer :=
    if mode = AdressingMode.Accumulator then
      (c.processor.acc,
       { c with processor := { c.processor with
           pc := (c.processor.pc + 1) % 65536
           clock := clock_add c.processor.clock 2 } })
    else if mode = AdressingMode.Absolute ∨ mode = AdressingMode.AbsoluteX then
      (c.processor.acc,
       { c with processor := { c.processor with
           pc := (c.processor.pc + 3) % 65536
           clock := clock_add c.processor.clock 6 } })
    else
      let c2 := { c with processor := { c.processor with
        pc := (c.processor.pc + 2) % 65536
        clock := clock_add c.processor.clock 6 } }
      c2.read addr
  let value := vc.1
  let c3 := vc.2
  let f0 := c3.processor.flags
  let result := ((value <<< 1) % 256) ||| (f0 &&& FLAG_C)
  let f1 := if (value >>> 7) &&& 1 = 1 then f0 ||| FLAG_C else f0 &&& (255 ^^^ FLAG_C)
  let f2 := if result = 0 then f1 ||| FLAG_Z else f1 &&& (255 ^^^ FLAG_Z)
  let f3 := if (result >>> 7) &&& 1 = 1 then f2 ||| FLAG_N else f2 &&& (255 ^^^ FLAG_N)
  let c4 := { c3 with processor := { c3.processor with flags := f3 } }
  if mode = AdressingMode.Accumulator then
    { c4 with processor := { c4.processor with acc := result } }
  else
    c4.write addr result

/-- Translation of `Computer::ror`: same branch structure as `rol`, rotating right with the
prior Carry entering bit 7. -/
def Computer.ror (c0 : Computer) : Computer :=
  let mode := get_adressing_mode c0.processor.inst
  let r := c0.get_ld_adddr mode
  let addr := r.1
  let c := r.2
  let vc : Nat × Computer :=
    if mode = AdressingMode.Accumulator then
      (c.processor.acc,
       { c with processor := { c.processor with
           pc := (c.processor.pc + 1) % 65536
           clock := clock_add c.processor.clock 2 } })
    else if mode = AdressingMode.Absolute ∨ mode = AdressingMode.AbsoluteX then
      (c.processor.acc,
       { c with processor := { c.processor with
           pc := (c.processor.pc + 3) % 65536
           clock := clock_add c.processor.clock 6 } })
    else
      let c2 := { c with processor := { c.processor with
        pc := (c.processor.pc + 2) % 65536
        clock := clock_add c.processor.clock 6 } }
      c2.read addr
  let value := vc.1
  let c3 := vc.2
  let f0 := c3.processor.flags
  let result := (value >>> 1) ||| ((f0 &&& FLAG_C) <<< 7)
  let f1 := if value &&& 1 = 1 then f0 ||| FLAG_C else f0 &&& (255 ^^^ FLAG_C)
  let f2 := if result = 0 then f1 ||| FLAG_Z else f1 &&& (255 ^^^ FLAG_Z)
  let f3 := if (result >>> 7) &&& 1 = 1 then f2 ||| FLAG_N else f2 &&& (255 ^^^ FLAG_N)
  let c4 := { c3 with processor := { c3.processor with flags := f3 } }
  if mode = AdressingMode.Accumulator then
    { c4 with processor := { c4.processor with acc := result } }
  else
    c4.write addr result

/-- Translation of `Computer::bbs`: branch when bit `num` of the zero-page operand is set;
the offset byte is sign-extended (`offset as i8`), the `i32` addition truncated
back to `u16`. -/
def Computer.bbs (c0 : Computer) (num : Nat) : Computer :=
  let r1 := c0.read (c0.processor.pc + 2)
  let offset := r1.1
  let r2 := r1.2.read (r1.2.processor.pc + 1)
  let zpa := r2.1
  let r3 := r2.2.read zpa
  let c := r3.2
  let should_jump := (r3.1 >>> num) &&& 1 = 1
  let base := (c.processor.pc + 3) % 65536
  let new_addr :=
    if should_jump then
      (base + (if offset < 128 then offset else offset + 65536 - 256)) % 65536
    else base
  { c with processor := { c.processor with
      pc := new_addr
      clock := clock_add c.processor.clock 4 } }

/-- Translation of `Computer::bbr`: branch when bit `num` of the zero-page operand is clear;
the source converts the offset byte with `offset as i32` (no sign extension),
so the raw unsigned byte is added. -/
def Computer.bbr (c0 : Computer) (num : Nat) : Computer :=
  let r1 := c0.read (c0.processor.pc + 2)
  let offset := r1.1
  let r2 := r1.2.read (r1.2.processor.pc + 1)
  let zpa := r2.1
  let r3 := r2.2.read zpa
  let c := r3.2
  let should_jump := (r3.1 >>> num) &&& 1 = 0
  let base := (c.processor.pc + 3) % 65536
  let new_addr := if should_jump then (base + offset) % 65536 else base
  { c with processor := { c.processor with
      pc := new_addr
      clock := clock_add c.processor.clock 4 } }

/-- Translation of `Computer::pla`: increment the stack pointer, pull the byte at
`0x100 + sp`, load it into the accumulator and run `set_flags` on it. -/
def Computer.pla (c0 : Computer) : Computer :=
  let sp := (c0.processor.sp + 1) % 256
  let c := { c0 with processor := { c0.processor with sp := sp } }
  let r := c.read (sp + 0x100)
  let c1 := r.2
  { c1 with processor := { c1.processor with
      acc := r.1
      flags := set_flags c1.processor.flags r.1
      pc := (c1.processor.pc + 1) % 65536
      clock := clock_add c1.processor.clock 4 } }

/-- Translation of `Computer::plx`: like `pla`, into the X register. -/
def Computer.plx (c0 : Computer) : Computer :=
  let sp := (c0.processor.sp + 1) % 256
  let c := { c0 with processor := { c0.processor with sp := sp } }
  let r := c.read (sp + 0x100)
  let c1 := r.2
  { c1 with processor := { c1.processor with
      rx := r.1
      flags := set_flags c1.processor.flags r.1
      pc := (c1.processor.pc + 1) % 65536
      clock := clock_add c1.processor.clock 4 } }

/-- Translation of `Computer::ply`: like `pla`, into the Y register. -/
def Computer.ply (c0 : Computer) : Computer :=
  let sp := (c0.processor.sp + 1) % 256
  let c := { c0 with processor := { c0.processor with sp := sp } }
  let r := c.read (sp + 0x100)
  let c1 := r.2
  { c1 with processor := { c1.processor with
      ry := r.1
      flags := set_flags c1.processor.flags r.1
      pc := (c1.processor.pc + 1) % 65536
      clock := clock_add c1.processor.clock 4 } }

/-- The opcode-fetch step of `Computer::run_instruction`
(`self.processor.inst = inst`) as a state update. -/
def Computer.with_inst (c : Computer) (i : Nat) : Computer :=
  { c with processor := { c.processor with inst := i } }

/-- Iterated reads of disk-controller register 0 (address `0xFFD0`),
collecting the returned bytes; the driver for the sector-transfer protocol. -/
def Computer.readSeq (c : Computer) : Nat → List Nat × Computer
  | 0 => ([], c)
  | n + 1 =>
      let r := c.read 0xFFD0
      let rest := r.2.readSeq n
      (r.1 :: rest.1, rest.2)

/-- The address-space construction in `Computer::new`: a zero-filled RAM
prefix of `0x10000 - rom.length` bytes with the ROM image appended. -/
def mkAddrSpace (rom : List Nat) : List Nat :=
  List.replicate (65536 - rom.length) 0 ++ rom

/-- The raw array store `self.data[addr as usize] = value` on the underlying
65,536-byte vector. -/
def writeData (data : List Nat) (addr value : Nat) : List Nat :=
  data.set addr value

/-- A machine poised to execute a single one-operand instruction: opcode
`inst`, accumulator `a`, flags `f`, `pc = 0x400`, no disk, and the operand
byte `b` placed at `0x401` (immediate operand of the first instruction) and
at `0x403` (immediate operand of a second instruction at `0x402`). -/
def opState (inst a f b : Nat) : Computer :=
  { processor := { flags := f, acc := a, rx := 0, ry := 0, pc := 0x400, sp := 0, clock := 0, inst := inst }
    paused := false
    lba := 0
    disk_cnt := 0
    command := DiskCommand.None
    data := fun addr => if addr = 0x401 then b else if addr = 0x403 then b else 0
    disk := [] }


/-! ### Generic bit-mask lemmas -/

theorem mask_or (x : Nat) {k m : Nat} (h : k &&& m = 0) : (x ||| k) &&& m = x &&& m := by
  apply Nat.eq_of_testBit_eq
  intro i
  have hb : (k &&& m).testBit i = false := by rw [h]; exact Nat.zero_testBit i
  rw [Nat.testBit_and] at hb
  simp only [Nat.testBit_and, Nat.testBit_or]
  cases hx : x.testBit i <;> cases hk : k.testBit i <;> cases hm : m.testBit i <;> simp_all

theorem mask_or_self (x m : Nat) : (x ||| m) &&& m = m := by
  apply Nat.eq_of_testBit_eq
  intro i
  simp only [Nat.testBit_and, Nat.testBit_or]
  cases hx : x.testBit i <;> cases hm : m.testBit i <;> simp

theorem mask_and (x : Nat) {k m : Nat} (h : k &&& m = m) : (x &&& k) &&& m = x &&& m := by
  rw [Nat.and_assoc, h]

theorem mask_and_zero (x : Nat) {k m : Nat} (h : k &&& m = 0) : (x &&& k) &&& m = 0 := by
  rw [Nat.and_assoc, h, Nat.and_zero]

/-! ### Bus-read reduction lemmas -/

/-- Reads below the disk-controller window are plain memory reads. -/
theorem read_plain (c : Computer) (a : Nat) (h1 : a < 0xFFD0) :
    c.read a = (c.data a, c) := by
  have hw : ¬ (0 < c.disk.length ∧ CF_ADDRESS ≤ a ∧ a < CF_ADDRESS + 0x10) := by
    unfold CF_ADDRESS; omega
  have he : a ≠ 0xFFE0 := by omega
  unfold Computer.read Computer.read_tail
  rw [if_neg hw, if_neg he]

/-- Reads above the serial mailbox are plain memory reads. -/
theorem read_plain_high (c : Computer) (a : Nat) (h1 : 0xFFE0 < a) :
    c.read a = (c.data a, c) := by
  have hw : ¬ (0 < c.disk.length ∧ CF_ADDRESS ≤ a ∧ a < CF_ADDRESS + 0x10) := by
    unfold CF_ADDRESS; omega
  have he : a ≠ 0xFFE0 := by omega
  unfold Computer.read Computer.read_tail
  rw [if_neg hw, if_neg he]

/-! ### C3 : reset -/

/-- C3 (amended): `reset` zeroes the clock and the disk-transfer state, reloads
the program counter from the little-endian word at `0xFFFC`, and leaves flags,
accumulator, X, Y, stack pointer, memory and disk unchanged. -/
theorem C3_reset_frame_amended (c : Computer) :
    (c.reset).processor.flags = c.processor.flags ∧
    (c.reset).processor.acc = c.processor.acc ∧
    (c.reset).processor.rx = c.processor.rx ∧
    (c.reset).processor.ry = c.processor.ry ∧
    (c.reset).processor.sp = c.processor.sp ∧
    (c.reset).processor.clock = 0 ∧
    (c.reset).processor.pc = c.data 0xFFFC + (c.data 0xFFFD <<< 8) ∧
    (c.reset).lba = 0 ∧
    (c.reset).disk_cnt = 0 ∧
    (c.reset).command = DiskCommand.None ∧
    (c.reset).data = c.data ∧
    (c.reset).disk = c.disk := by
  simp only [Computer.reset, Computer.get_word]
  simp [read_plain_high]


/-- A concrete machine used to refute C3: nonzero clock, distinctive register
values, reset vector `0x1234` at `0xFFFC`/`0xFFFD`. -/
def cexC3 : Computer :=
  { processor := { flags := 0x35, acc := 1, rx := 2, ry := 3, pc := 0x400, sp := 4, clock := 7, inst := 0xEA }
    paused := false
    lba := 0
    disk_cnt := 0
    command := DiskCommand.None
    data := fun a => if a = 0xFFFC then 0x34 else if a = 0xFFFD then 0x12 else 0
    disk := [] }

/-- C3 (counterexample): at `cexC3` the clock (7) IS overwritten to 0 by
`reset`, and flags/acc/X/Y/sp are NOT overwritten (they keep their old
values, none of which equals a reset pattern); only the pc is re-read from
`0xFFFC`. -/
theorem C3_reset_counterexample :
    cexC3.processor.clock = 7 ∧
    (Computer.reset cexC3).processor.clock = 0 ∧
    (Computer.reset cexC3).processor.flags = 0x35 ∧
    (Computer.reset cexC3).processor.acc = 1 ∧
    (Computer.reset cexC3).processor.rx = 2 ∧
    (Computer.reset cexC3).processor.ry = 3 ∧
    (Computer.reset cexC3).processor.sp = 4 ∧
    (Computer.reset cexC3).processor.pc = 0x1234 := by
  decide

/-! ### C7 : disk register 6 -/

/-- A machine with a disk attached and a nonzero 24-bit logical block address. -/
def cexC7 : Computer :=
  { processor := { flags := 0x30, acc := 0, rx := 0, ry := 0, pc := 0x400, sp := 0, clock := 0, inst := 0xEA }
    paused := false
    lba := 0x123456
    disk_cnt := 0
    command := DiskCommand.None
    data := fun _ => 0
    disk := [0] }

/-- C7: writing `0x05` to disk register 6 (address `0xFFD6`) leaves the LBA at
`0x123456`; the source masks `(value << 24) & 0xF`, which is always zero, so
bits 24-27 never receive `value & 0xF` (`0x05123456` here). -/
theorem C7_lba_high_nibble_lost :
    (Computer.write cexC7 0xFFD6 0x05).lba = 0x123456 ∧
    (0x123456 : Nat) ≠ 0x05123456 ∧
    ((0x05 <<< 24) &&& 0xF : Nat) = 0 := by
  decide

/-! ### C8 : no-disk behaviour of the register window -/

/-- A machine with no disk attached and all-zero memory. -/
def cexC8 : Computer :=
  { processor := { flags := 0x30, acc := 0, rx := 0, ry := 0, pc := 0x400, sp := 0, clock := 0, inst := 0xEA }
    paused := false
    lba := 0
    disk_cnt := 0
    command := DiskCommand.None
    data := fun _ => 0
    disk := [] }

/-- C8 (counterexample): with no disk attached, writing 5 to `0xFFD0` stores 5
in the address space (not a no-op), and a subsequent read of `0xFFD0` on that
(still disk-less) machine returns 5, not 0. -/
theorem C8_no_disk_counterexample :
    (Computer.write cexC8 0xFFD0 5).data 0xFFD0 = 5 ∧
    ((Computer.write cexC8 0xFFD0 5).read 0xFFD0).1 = 5 ∧
    (5 : Nat) ≠ 0 := by
  decide

/-- C8 (amended): with no disk attached the register window `0xFFD0..0xFFDF`
behaves as ordinary RAM: a read returns the stored byte without side effects,
and a write stores the byte at that address and changes nothing else. -/
theorem C8_no_disk_window_amended (c : Computer) (a v : Nat) (hdisk : c.disk = [])
    (h1 : 0xFFD0 ≤ a) (h2 : a < 0xFFE0) :
    (c.read a = (c.data a, c)) ∧
    ((c.write a v).data a = v) ∧
    (∀ x, x ≠ a → (c.write a v).data x = c.data x) ∧
    ((c.write a v).processor = c.processor) ∧
    ((c.write a v).lba = c.lba) ∧
    ((c.write a v).disk_cnt = c.disk_cnt) ∧
    ((c.write a v).command = c.command) ∧
    ((c.write a v).disk = c.disk) ∧
    ((c.write a v).paused = c.paused) := by
  have hw : ¬ (0 < c.disk.length ∧ CF_ADDRESS ≤ a ∧ a < CF_ADDRESS + 0x10) := by
    rw [hdisk]; unfold CF_ADDRESS; simp
  have he : a ≠ 0xFFE0 := by omega
  refine ⟨?_, ?_, ?_, ?_, ?_, ?_, ?_, ?_, ?_⟩ <;>
    simp [Computer.read, Computer.read_tail, Computer.write, hw, he]
  intro x hx
  simp [hx]

/-- C8 witness: the amended statement applied at a concrete disk-less machine,
address `0xFFD3`, value 9. -/
theorem C8_no_disk_window_amended_witness :
    cexC8.disk = [] ∧
    (cexC8.read 0xFFD3 = (cexC8.data 0xFFD3, cexC8)) ∧
    ((cexC8.write 0xFFD3 9).data 0xFFD3 = 9) := by
  refine ⟨rfl, ?_, ?_⟩
  · exact (C8_no_disk_window_amended cexC8 0xFFD3 9 rfl (by omega) (by omega)).1
  · exact (C8_no_disk_window_amended cexC8 0xFFD3 9 rfl (by omega) (by omega)).2.1

/-! ### C9 : address-space bounds -/

/-- C9: the address space built by `Computer::new` from a ROM of at most 64KB
has exactly 65,536 entries; the raw store preserves that length; every 16-bit
address (and the wrapped `addr+1` of a word fetch) is an in-range index; and
the word fetch at `0xFFFF` takes its high byte from address `0x0000`. -/
theorem C9_address_space_bounds :
    (∀ rom : List Nat, rom.length ≤ 65536 → (mkAddrSpace rom).length = 65536) ∧
    (∀ (d : List Nat) (a v : Nat), (writeData d a v).length = d.length) ∧
    (∀ (rom : List Nat) (a : Nat), rom.length ≤ 65536 → a < 65536 →
       a < (mkAddrSpace rom).length ∧ (a + 1) % 65536 < (mkAddrSpace rom).length) ∧
    (∀ c : Computer, c.get_word 0xFFFF = (c.data 0xFFFF + (c.data 0 <<< 8), c)) := by
  have hlen : ∀ rom : List Nat, rom.length ≤ 65536 → (mkAddrSpace rom).length = 65536 := by
    intro rom h
    simp [mkAddrSpace]
    omega
  refine ⟨hlen, ?_, ?_, ?_⟩
  · intro d a v
    simp [writeData]
  · intro rom a h ha
    rw [hlen rom h]
    constructor
    · exact ha
    · exact Nat.mod_lt _ (by omega)
  · intro c
    simp only [Computer.get_word]
    rw [read_plain_high _ _ (by omega)]
    norm_num
    rw [read_plain _ _ (by omega)]
    exact ⟨rfl, rfl⟩

/-- C9 witness: the bounds facts at a concrete ROM, address and machine. -/
theorem C9_address_space_bounds_witness :
    ((List.replicate 100 7 : List Nat).length ≤ 65536 ∧
     (mkAddrSpace (List.replicate 100 7)).length = 65536) ∧
    (writeData [1, 2, 3] 1 9).length = 3 ∧
    (0xFFFF : Nat) < 65536 ∧ 0xFFFF < (mkAddrSpace (List.replicate 100 7)).length ∧
    cexC8.get_word 0xFFFF = (cexC8.data 0xFFFF + (cexC8.data 0 <<< 8), cexC8) := by
  have h : (List.replicate 100 7 : List Nat).length ≤ 65536 := by simp
  refine ⟨⟨h, C9_address_space_bounds.1 _ h⟩, C9_address_space_bounds.2.1 _ _ _, by omega,
    (C9_address_space_bounds.2.2.1 _ 0xFFFF h (by omega)).1, C9_address_space_bounds.2.2.2 cexC8⟩


/-! ### C1 : ROL/ROR memory operand -/

/-- A machine about to execute `ROL $0300` (opcode `0x2E`, Absolute): the byte
at the effective address `0x0300` is 1, the accumulator is `0x40`, Carry clear. -/
def cexC1 : Computer :=
  { processor := { flags := 0x30, acc := 0x40, rx := 0, ry := 0, pc := 0x200, sp := 0, clock := 0, inst := 0x2E }
    paused := false
    lba := 0
    disk_cnt := 0
    command := DiskCommand.None
    data := fun a => if a = 0x200 then 0x2E else if a = 0x201 then 0 else if a = 0x202 then 3 else if a = 0x300 then 1 else 0
    disk := [] }

/-- The same machine about to execute `ROR $0300` (opcode `0x6E`, Absolute). -/
def cexC1r : Computer :=
  { processor := { flags := 0x30, acc := 0x40, rx := 0, ry := 0, pc := 0x200, sp := 0, clock := 0, inst := 0x6E }
    paused := false
    lba := 0
    disk_cnt := 0
    command := DiskCommand.None
    data := fun a => if a = 0x200 then 0x6E else if a = 0x201 then 0 else if a = 0x202 then 3 else if a = 0x300 then 1 else 0
    disk := [] }

/-- C1: with Absolute addressing the source rotates the ACCUMULATOR, not the
byte read from the effective address, and writes that result back to the
address: `ROL $0300` stores `0x80` (acc `0x40` << 1) where rotating the memory
byte 1 would store 2, and `ROR $0300` stores `0x20` (acc `0x40` >> 1) where
rotating the memory byte 1 would store 0. -/
theorem C1_rol_ror_absolute_uses_acc :
    get_adressing_mode 0x2E = AdressingMode.Absolute ∧
    get_adressing_mode 0x6E = AdressingMode.Absolute ∧
    (Computer.rol cexC1).data 0x300 = 0x80 ∧
    cexC1.data 0x300 = 1 ∧ cexC1.processor.acc = 0x40 ∧
    ((cexC1.data 0x300 <<< 1) % 256) ||| (cexC1.processor.flags &&& FLAG_C) = 2 ∧
    (0x80 : Nat) ≠ 2 ∧
    (Computer.ror cexC1r).data 0x300 = 0x20 ∧
    ((cexC1r.data 0x300 >>> 1) ||| ((cexC1r.processor.flags &&& FLAG_C) <<< 7)) = 0 ∧
    (0x20 : Nat) ≠ 0 := by
  decide

/-! ### C5 : BBR/BBS branch offsets -/

/-- A machine about to execute `BBR0 $10, -2` at `pc = 0x1000`: zero-page byte
`0x10` has bit 0 clear, the offset byte is `0xFE` (−2 as a signed byte). -/
def cexC5 : Computer :=
  { processor := { flags := 0x30, acc := 0, rx := 0, ry := 0, pc := 0x1000, sp := 0, clock := 0, inst := 0x0F }
    paused := false
    lba := 0
    disk_cnt := 0
    command := DiskCommand.None
    data := fun a => if a = 0x1001 then 0x10 else if a = 0x1002 then 0xFE else 0
    disk := [] }

/-- The same machine with bit 0 of zero-page byte `0x10` set (so `BBS0` is
taken and `BBR0` is not). -/
def cexC5b : Computer :=
  { processor := { flags := 0x30, acc := 0, rx := 0, ry := 0, pc := 0x1000, sp := 0, clock := 0, inst := 0x8F }
    paused := false
    lba := 0
    disk_cnt := 0
    command := DiskCommand.None
    data := fun a => if a = 0x1001 then 0x10 else if a = 0x1002 then 0xFE else if a = 0x10 then 1 else 0
    disk := [] }

/-- C5: a taken `BBR0` with offset byte `0xFE` lands at `pc + 3 + 0xFE`
(`0x1101`), not at the sign-extended target `pc + 3 − 2` (`0x1001`): the
source converts the offset with `as i32` instead of `as i8`.  `BBS0` does
sign-extend (a taken branch lands at `0x1001`), and an untaken `BBR0`
advances by exactly 3. -/
theorem C5_bbr_offset_not_sign_extended :
    (Computer.bbr cexC5 0).processor.pc = 0x1101 ∧
    (0x1000 + 3 + 65536 - 2) % 65536 = 0x1001 ∧
    (0x1101 : Nat) ≠ 0x1001 ∧
    (Computer.bbs cexC5b 0).processor.pc = 0x1001 ∧
    (Computer.bbr cexC5b 0).processor.pc = 0x1003 := by
  decide

/-! ### Flag-helper lemmas for `set_flags` and `do_add` -/

theorem set_flags_and_of (f v m : Nat) (h2 : 2 &&& m = 0) (h80 : 128 &&& m = 0)
    (h48 : 48 &&& m = 0) (hFD : 253 &&& m = m) (h7F : 127 &&& m = m) :
    set_flags f v &&& m = f &&& m := by
  simp only [set_flags, FLAG_Z, FLAG_N, Nat.reduceXor,
    show (2 : Nat) &&& 127 = 2 from by decide]
  by_cases h0 : v = 0
  · rw [if_pos h0]
    by_cases h7 : v >>> 7 = 1
    · rw [if_pos h7, mask_or (h := h48), mask_or (h := h80), mask_or (h := h2)]
    · rw [if_neg h7, mask_or (h := h48), mask_and (h := h7F), mask_or (h := h2)]
  · rw [if_neg h0]
    by_cases h7 : v >>> 7 = 1
    · rw [if_pos h7, mask_or (h := h48), mask_or (h := h80), mask_and (h := hFD)]
    · rw [if_neg h7, mask_or (h := h48), mask_and (h := h7F), mask_and (h := hFD)]

theorem set_flags_and_carry (f v : Nat) : set_flags f v &&& FLAG_C = f &&& FLAG_C :=
  set_flags_and_of f v 1 (by decide) (by decide) (by decide) (by decide) (by decide)

theorem set_flags_and_decimal (f v : Nat) : set_flags f v &&& FLAG_D = f &&& FLAG_D :=
  set_flags_and_of f v 8 (by decide) (by decide) (by decide) (by decide) (by decide)

theorem set_flags_and_cido (f v : Nat) :
    set_flags f v &&& (FLAG_C ||| FLAG_I ||| FLAG_D ||| FLAG_O) =
      f &&& (FLAG_C ||| FLAG_I ||| FLAG_D ||| FLAG_O) :=
  set_flags_and_of f v 0x4D (by decide) (by decide) (by decide) (by decide) (by decide)

theorem set_flags_and_zero_bit (f v : Nat) :
    set_flags f v &&& FLAG_Z = if v = 0 then FLAG_Z else 0 := by
  simp only [set_flags, FLAG_Z, FLAG_N, Nat.reduceXor,
    show (2 : Nat) &&& 127 = 2 from by decide]
  by_cases h0 : v = 0
  · have h7 : ¬ (v >>> 7 = 1) := by subst h0; decide
    rw [if_pos h0, if_pos h0, if_neg h7, mask_or (h := by decide), mask_and (h := by decide),
        mask_or_self]
  · rw [if_neg h0, if_neg h0]
    by_cases h7 : v >>> 7 = 1
    · rw [if_pos h7, mask_or (h := by decide), mask_or (h := by decide),
          mask_and_zero (h := by decide)]
    · rw [if_neg h7, mask_or (h := by decide), mask_and (h := by decide),
          mask_and_zero (h := by decide)]

theorem set_flags_and_neg_bit (f v : Nat) (hv : v < 256) :
    set_flags f v &&& FLAG_N = (v >>> 7) * FLAG_N := by
  simp only [set_flags, FLAG_Z, FLAG_N, Nat.reduceXor,
    show (2 : Nat) &&& 127 = 2 from by decide]
  by_cases h0 : v = 0
  · have h7 : ¬ (v >>> 7 = 1) := by subst h0; decide
    have hz : v >>> 7 = 0 := by subst h0; decide
    rw [if_pos h0, if_neg h7, hz, mask_or (h := by decide), mask_and_zero (h := by decide)]
  · rw [if_neg h0]
    by_cases h7 : v >>> 7 = 1
    · rw [if_pos h7, h7, mask_or (h := by decide), mask_or_self]
    · have hz : v >>> 7 = 0 := by
        rw [Nat.shiftRight_eq_div_pow] at h7 ⊢
        omega
      rw [if_neg h7, hz, mask_or (h := by decide), mask_and_zero (h := by decide)]

theorem set_flags_and_48 (f v : Nat) : set_flags f v &&& 0x30 = 0x30 := by
  simp only [set_flags, FLAG_Z, FLAG_N, Nat.reduceXor,
    show (2 : Nat) &&& 127 = 2 from by decide]
  rw [mask_or_self]

/-- The observable effect of `do_add`: 8-bit sum, Carry out, Decimal preserved,
and the fields `do_add` does not touch. -/
theorem do_add_spec (c : Computer) (v : Nat) :
    (c.do_add v).1 = (c.processor.acc + v + (c.processor.flags &&& FLAG_C)) % 256 ∧
    ((c.do_add v).2.processor.flags &&& FLAG_C =
      if 255 < c.processor.acc + v + (c.processor.flags &&& FLAG_C) then 1 else 0) ∧
    ((c.do_add v).2.processor.flags &&& FLAG_D = c.processor.flags &&& FLAG_D) ∧
    (c.do_add v).2.processor.acc = c.processor.acc ∧
    (c.do_add v).2.processor.pc = c.processor.pc ∧
    (c.do_add v).2.processor.inst = c.processor.inst ∧
    (c.do_add v).2.data = c.data ∧
    (c.do_add v).2.disk = c.disk := by
  simp only [Computer.do_add, FLAG_C, FLAG_O]
  refine ⟨by trivial, ?_, ?_, by trivial, by trivial, by trivial, by trivial, by trivial⟩
  · by_cases hov : (c.processor.acc ^^^ (c.processor.acc + v + (c.processor.flags &&& 1)) % 256) &&&
        (v ^^^ (c.processor.acc + v + (c.processor.flags &&& 1)) % 256) &&& 128 ≠ 0
    · rw [if_pos hov]
      by_cases hc : 255 < c.processor.acc + v + (c.processor.flags &&& 1)
      · rw [if_pos hc, if_pos hc, mask_or (h := by decide), mask_or_self]
      · rw [if_neg hc, if_neg hc, mask_or (h := by decide), mask_and_zero (h := by decide)]
    · rw [if_neg hov]
      by_cases hc : 255 < c.processor.acc + v + (c.processor.flags &&& 1)
      · rw [if_pos hc, if_pos hc, mask_and (h := by decide), mask_or_self]
      · rw [if_neg hc, if_neg hc, mask_and (h := by decide), mask_and_zero (h := by decide)]
  · by_cases hov : (c.processor.acc ^^^ (c.processor.acc + v + (c.processor.flags &&& 1)) % 256) &&&
        (v ^^^ (c.processor.acc + v + (c.processor.flags &&& 1)) % 256) &&& 128 ≠ 0
    · rw [if_pos hov]
      by_cases hc : 255 < c.processor.acc + v + (c.processor.flags &&& 1)
      · rw [if_pos hc, mask_or (h := by decide), mask_or (h := by decide)]
        exact set_flags_and_decimal _ _
      · rw [if_neg hc, mask_or (h := by decide), mask_and (h := by decide)]
        exact set_flags_and_decimal _ _
    · rw [if_neg hov]
      by_cases hc : 255 < c.processor.acc + v + (c.processor.flags &&& 1)
      · rw [if_pos hc, mask_and (h := by decide), mask_or (h := by decide)]
        exact set_flags_and_decimal _ _
      · rw [if_neg hc, mask_and (h := by decide), mask_and (h := by decide)]
        exact set_flags_and_decimal _ _


/-! ### C10 : PLA/PLX/PLY flag semantics -/

/-- The flags produced by a pull instruction are `set_flags` of the pulled
stack byte; the pull address (`0x100` plus the incremented stack pointer) is
always below the device window. -/
theorem pull_flags_eq (c : Computer) :
    (c.pla).processor.flags =
      set_flags c.processor.flags (c.data ((c.processor.sp + 1) % 256 + 0x100)) ∧
    (c.plx).processor.flags =
      set_flags c.processor.flags (c.data ((c.processor.sp + 1) % 256 + 0x100)) ∧
    (c.ply).processor.flags =
      set_flags c.processor.flags (c.data ((c.processor.sp + 1) % 256 + 0x100)) := by
  have hlt : (c.processor.sp + 1) % 256 + 0x100 < 0xFFD0 := by
    have := Nat.mod_lt (c.processor.sp + 1) (y := 256) (by omega)
    omega
  refine ⟨?_, ?_, ?_⟩ <;>
    simp [Computer.pla, Computer.plx, Computer.ply, read_plain _ _ hlt]

/-- C10: every pull instruction (`PLA`, `PLX`, `PLY`) sets Zero exactly when
the pulled byte is 0, sets Negative to bit 7 of the pulled byte, forces flag
bits 4 and 5 on, and leaves Carry, Interrupt-disable, Decimal and Overflow
unchanged. -/
theorem C10_pull_flag_semantics (c : Computer)
    (hv : c.data ((c.processor.sp + 1) % 256 + 0x100) < 256) :
    ((c.pla).processor.flags &&& FLAG_Z =
      if c.data ((c.processor.sp + 1) % 256 + 0x100) = 0 then FLAG_Z else 0) ∧
    ((c.pla).processor.flags &&& FLAG_N =
      (c.data ((c.processor.sp + 1) % 256 + 0x100) >>> 7) * FLAG_N) ∧
    ((c.pla).processor.flags &&& 0x30 = 0x30) ∧
    ((c.pla).processor.flags &&& (FLAG_C ||| FLAG_I ||| FLAG_D ||| FLAG_O) =
      c.processor.flags &&& (FLAG_C ||| FLAG_I ||| FLAG_D ||| FLAG_O)) ∧
    ((c.plx).processor.flags = (c.pla).processor.flags) ∧
    ((c.ply).processor.flags = (c.pla).processor.flags) := by
  obtain ⟨ha, hx, hy⟩ := pull_flags_eq c
  rw [ha, hx, hy]
  exact ⟨set_flags_and_zero_bit _ _, set_flags_and_neg_bit _ _ hv, set_flags_and_48 _ _,
    set_flags_and_cido _ _, rfl, rfl⟩

/-- A concrete machine for the C10 witness: stack byte `0x85` at `0x101`
(so Zero clear, Negative set), flags start at `0x7F`. -/
def cexC10 : Computer :=
  { processor := { flags := 0x7F, acc := 0, rx := 0, ry := 0, pc := 0x400, sp := 0, clock := 0, inst := 0x68 }
    paused := false
    lba := 0
    disk_cnt := 0
    command := DiskCommand.None
    data := fun a => if a = 0x101 then 0x85 else 0
    disk := [] }

/-- C10 witness: the theorem instantiated at `cexC10`. -/
theorem C10_pull_flag_semantics_witness :
    cexC10.data ((cexC10.processor.sp + 1) % 256 + 0x100) < 256 ∧
    (((cexC10.pla).processor.flags &&& FLAG_Z =
       if cexC10.data ((cexC10.processor.sp + 1) % 256 + 0x100) = 0 then FLAG_Z else 0) ∧
     ((cexC10.pla).processor.flags &&& FLAG_N =
       (cexC10.data ((cexC10.processor.sp + 1) % 256 + 0x100) >>> 7) * FLAG_N) ∧
     ((cexC10.pla).processor.flags &&& 0x30 = 0x30) ∧
     ((cexC10.pla).processor.flags &&& (FLAG_C ||| FLAG_I ||| FLAG_D ||| FLAG_O) =
       cexC10.processor.flags &&& (FLAG_C ||| FLAG_I ||| FLAG_D ||| FLAG_O)) ∧
     ((cexC10.plx).processor.flags = (cexC10.pla).processor.flags) ∧
     ((cexC10.ply).processor.flags = (cexC10.pla).processor.flags)) :=
  ⟨by decide, C10_pull_flag_semantics cexC10 (by decide)⟩


/-- Lemma: `after_logical_op` only moves the program counter and clock. -/
theorem after_logical_op_frame (c : Computer) :
    (c.after_logical_op).processor.flags = c.processor.flags ∧
    (c.after_logical_op).processor.acc = c.processor.acc ∧
    (c.after_logical_op).data = c.data := by
  simp only [Computer.after_logical_op]
  repeat' split
  all_goals exact ⟨rfl, rfl, rfl⟩

/-- C4: decimal-mode ADC at the two spec-listed inputs, for every flags byte
with Decimal set and Carry clear. -/
theorem C4_adc_decimal_cases (f : Nat) (hd : f &&& FLAG_D ≠ 0) (hc : f &&& FLAG_C = 0) :
    ((opState 0x69 0x79 f 0x00).adc.processor.acc = 0x79 ∧
     (opState 0x69 0x79 f 0x00).adc.processor.flags &&& FLAG_C = 0) ∧
    ((opState 0x69 0x99 f 0x01).adc.processor.acc = 0x00 ∧
     (opState 0x69 0x99 f 0x01).adc.processor.flags &&& FLAG_C = 1) := by
  have hmode : get_adressing_mode 0x69 = AdressingMode.Immediate := by decide
  refine ⟨⟨?_, ?_⟩, ?_, ?_⟩
  · simp only [Computer.adc, opState, hmode, Computer.get_ld_adddr]
    rw [read_plain _ _ (by omega)]
    rw [(after_logical_op_frame _).2.1]
    simp [hd, hc, show (121 : Nat) &&& 15 = 9 from by decide,
      show (121 : Nat) &&& 240 = 112 from by decide]
  · simp only [Computer.adc, opState, hmode, Computer.get_ld_adddr]
    rw [read_plain _ _ (by omega)]
    rw [(after_logical_op_frame _).1]
    simp [hd, hc, show (121 : Nat) &&& 15 = 9 from by decide,
      show (121 : Nat) &&& 240 = 112 from by decide]
    rw [set_flags_and_carry]
    rw [show (255 : Nat) ^^^ FLAG_C = 254 from by decide, FLAG_C]
    split
    · rw [mask_and_zero (h := by decide)]
    · rw [show (255 : Nat) ^^^ FLAG_O = 191 from by decide,
        mask_and (h := by decide), mask_and_zero (h := by decide)]
  · simp only [Computer.adc, opState, hmode, Computer.get_ld_adddr]
    rw [read_plain _ _ (by omega)]
    rw [(after_logical_op_frame _).2.1]
    simp [hd, hc, show (153 : Nat) &&& 15 = 9 from by decide,
      show (153 : Nat) &&& 240 = 144 from by decide,
      show (1 : Nat) &&& 15 = 1 from by decide,
      show (1 : Nat) &&& 240 = 0 from by decide,
      show (16 : Nat) &&& 15 = 0 from by decide]
  · simp only [Computer.adc, opState, hmode, Computer.get_ld_adddr]
    rw [read_plain _ _ (by omega)]
    rw [(after_logical_op_frame _).1]
    simp [hd, hc, show (153 : Nat) &&& 15 = 9 from by decide,
      show (153 : Nat) &&& 240 = 144 from by decide,
      show (1 : Nat) &&& 15 = 1 from by decide,
      show (1 : Nat) &&& 240 = 0 from by decide,
      show (16 : Nat) &&& 15 = 0 from by decide]
    rw [set_flags_and_carry, FLAG_C, mask_or_self]


/-- C4 witness: the decimal ADC cases at the concrete flags byte `0x38`. -/
theorem C4_adc_decimal_cases_witness :
    ((0x38 : Nat) &&& FLAG_D ≠ 0 ∧ (0x38 : Nat) &&& FLAG_C = 0) ∧
    (((opState 0x69 0x79 0x38 0x00).adc.processor.acc = 0x79 ∧
      (opState 0x69 0x79 0x38 0x00).adc.processor.flags &&& FLAG_C = 0) ∧
     ((opState 0x69 0x99 0x38 0x01).adc.processor.acc = 0x00 ∧
      (opState 0x69 0x99 0x38 0x01).adc.processor.flags &&& FLAG_C = 1)) :=
  ⟨⟨by decide, by decide⟩, C4_adc_decimal_cases 0x38 (by decide) (by decide)⟩

/-! ### C2 : binary SBC/ADC round trip -/

theorem do_add_fst (c : Computer) (v : Nat) :
    (c.do_add v).1 = (c.processor.acc + v + (c.processor.flags &&& FLAG_C)) % 256 :=
  (do_add_spec c v).1

theorem do_add_carry_out (c : Computer) (v : Nat) :
    (c.do_add v).2.processor.flags &&& FLAG_C =
      if 255 < c.processor.acc + v + (c.processor.flags &&& FLAG_C) then 1 else 0 :=
  (do_add_spec c v).2.1

theorem do_add_decimal (c : Computer) (v : Nat) :
    (c.do_add v).2.processor.flags &&& FLAG_D = c.processor.flags &&& FLAG_D :=
  (do_add_spec c v).2.2.1

theorem do_add_acc (c : Computer) (v : Nat) :
    (c.do_add v).2.processor.acc = c.processor.acc :=
  (do_add_spec c v).2.2.2.1

theorem do_add_pc (c : Computer) (v : Nat) :
    (c.do_add v).2.processor.pc = c.processor.pc :=
  (do_add_spec c v).2.2.2.2.1

theorem do_add_inst (c : Computer) (v : Nat) :
    (c.do_add v).2.processor.inst = c.processor.inst :=
  (do_add_spec c v).2.2.2.2.2.1

theorem do_add_data (c : Computer) (v : Nat) : (c.do_add v).2.data = c.data :=
  (do_add_spec c v).2.2.2.2.2.2.1

theorem do_add_clock (c : Computer) (v : Nat) :
    (c.do_add v).2.processor.clock = c.processor.clock := by
  simp only [Computer.do_add]

theorem do_add_sp (c : Computer) (v : Nat) :
    (c.do_add v).2.processor.sp = c.processor.sp := by
  simp only [Computer.do_add]

theorem do_add_rx (c : Computer) (v : Nat) :
    (c.do_add v).2.processor.rx = c.processor.rx := by
  simp only [Computer.do_add]

theorem do_add_ry (c : Computer) (v : Nat) :
    (c.do_add v).2.processor.ry = c.processor.ry := by
  simp only [Computer.do_add]

theorem do_add_paused (c : Computer) (v : Nat) : (c.do_add v).2.paused = c.paused := by
  simp only [Computer.do_add]

theorem do_add_lba (c : Computer) (v : Nat) : (c.do_add v).2.lba = c.lba := by
  simp only [Computer.do_add]

theorem do_add_disk_cnt (c : Computer) (v : Nat) : (c.do_add v).2.disk_cnt = c.disk_cnt := by
  simp only [Computer.do_add]

theorem do_add_command (c : Computer) (v : Nat) : (c.do_add v).2.command = c.command := by
  simp only [Computer.do_add]

theorem do_add_disk (c : Computer) (v : Nat) : (c.do_add v).2.disk = c.disk :=
  (do_add_spec c v).2.2.2.2.2.2.2

/-- Lemma: `after_logical_op` on a state whose instruction decodes to `Immediate`. -/
theorem after_logical_op_immediate (c : Computer)
    (h : get_adressing_mode c.processor.inst = AdressingMode.Immediate) :
    c.after_logical_op = { c with processor := { c.processor with
      pc := (c.processor.pc + 2) % 65536
      clock := clock_add c.processor.clock 2 } } := by
  simp only [Computer.after_logical_op, h, if_true]


set_option maxRecDepth 4096 in
theorem xor255_eq (b : Nat) (hb : b < 256) : 255 ^^^ b = 255 - b := by
  have h : ∀ x, x < 256 → 255 ^^^ x = 255 - x := by decide
  exact h b hb

theorem sbc_imm_characterization (a b f : Nat) (hd : f &&& FLAG_D = 0) :
    Computer.sbc (opState 0xE9 a f b) =
      { processor := { flags := ((opState 0xE9 a f b).do_add (255 ^^^ b)).2.processor.flags
                       acc := ((opState 0xE9 a f b).do_add (255 ^^^ b)).1
                       rx := 0
                       ry := 0
                       pc := 1026
                       sp := 0
                       clock := clock_add 0 2
                       inst := 0xE9 }
        paused := false
        lba := 0
        disk_cnt := 0
        command := DiskCommand.None
        data := fun addr => if addr = 0x401 then b else if addr = 0x403 then b else 0
        disk := [] } := by
  have hmode : get_adressing_mode 0xE9 = AdressingMode.Immediate := by decide
  simp only [Computer.sbc, opState, hmode, Computer.get_ld_adddr]
  rw [read_plain _ _ (by omega)]
  simp only [hd, ne_eq, not_true_eq_false, if_false, ite_false]
  rw [after_logical_op_immediate]
  · simp only [do_add_pc, do_add_clock, do_add_inst, do_add_rx, do_add_ry, do_add_sp,
      do_add_paused, do_add_lba, do_add_disk_cnt, do_add_command, do_add_data, do_add_disk]
    simp
  · simp only [do_add_inst]
    exact hmode


/-- C2 (amended): with Decimal clear, SBC of `b` followed by ADC of the same
`b` with the carry produced by the SBC yields `a + 255 + cIn + cOut` (mod 256),
where `cIn` is the carry-in and `cOut` the SBC carry-out; the accumulator is
restored exactly when `cIn + cOut = 1`, i.e. when the carry-out differs from
the carry-in — not for every combination. -/
theorem C2_sbc_adc_roundtrip_amended (a b f : Nat) (ha : a < 256) (hb : b < 256)
    (hd : f &&& FLAG_D = 0) :
    ((Computer.sbc (opState 0xE9 a f b)).with_inst 0x69).adc.processor.acc =
      (a + 255 + (f &&& FLAG_C) +
        ((Computer.sbc (opState 0xE9 a f b)).processor.flags &&& FLAG_C)) % 256 ∧
    (((Computer.sbc (opState 0xE9 a f b)).with_inst 0x69).adc.processor.acc = a ↔
      (f &&& FLAG_C) + ((Computer.sbc (opState 0xE9 a f b)).processor.flags &&& FLAG_C) = 1) := by
  have hmode2 : get_adressing_mode 0x69 = AdressingMode.Immediate := by decide
  rw [sbc_imm_characterization a b f hd]
  simp only [Computer.with_inst]
  simp only [Computer.adc, hmode2, Computer.get_ld_adddr]
  rw [read_plain _ _ (by omega)]
  have hDd : ((opState 0xE9 a f b).do_add (255 ^^^ b)).2.processor.flags &&& FLAG_D = 0 := by
    rw [do_add_decimal]
    exact hd
  simp only [hDd, ne_eq, not_true_eq_false, if_false, ite_false]
  rw [(after_logical_op_frame _).2.1]
  simp only [do_add_fst]
  simp only [opState]
  rw [xor255_eq b hb]
  have hq : ({ processor := { flags := f, acc := a, rx := 0, ry := 0, pc := 1024, sp := 0, clock := 0, inst := 233 }
               paused := false
               lba := 0
               disk_cnt := 0
               command := DiskCommand.None
               data := fun addr => if addr = 1025 then b else if addr = 1027 then b else 0
               disk := ([] : List Nat) } : Computer).do_add (255 - b)
      |>.2.processor.flags &&& FLAG_C ≤ 1 := Nat.and_le_right
  have hcin : f &&& FLAG_C ≤ 1 := Nat.and_le_right
  simp only [if_true,
    show ¬((1026 : Nat) + 1 = 1025) from by omega, if_false, ite_false]
  constructor
  · omega
  · omega


/-- C2 (counterexample): at `a = 0`, `b = 0`, Carry clear, Decimal clear, the
SBC-then-ADC round trip yields `0xFF`, not the original accumulator 0. -/
theorem C2_sbc_adc_roundtrip_counterexample :
    (opState 0xE9 0 0x30 0).processor.acc = 0 ∧
    (opState 0xE9 0 0x30 0).processor.flags &&& FLAG_C = 0 ∧
    (opState 0xE9 0 0x30 0).processor.flags &&& FLAG_D = 0 ∧
    ((Computer.sbc (opState 0xE9 0 0x30 0)).with_inst 0x69).adc.processor.acc = 255 ∧
    (255 : Nat) ≠ 0 := by
  decide

/-- C2 witness: the amended statement applied at `a = 5`, `b = 3`, flags `0x30`. -/
theorem C2_sbc_adc_roundtrip_amended_witness :
    ((5 : Nat) < 256 ∧ (3 : Nat) < 256 ∧ (0x30 : Nat) &&& FLAG_D = 0) ∧
    (((Computer.sbc (opState 0xE9 5 0x30 3)).with_inst 0x69).adc.processor.acc =
       (5 + 255 + ((0x30 : Nat) &&& FLAG_C) +
         ((Computer.sbc (opState 0xE9 5 0x30 3)).processor.flags &&& FLAG_C)) % 256 ∧
     (((Computer.sbc (opState 0xE9 5 0x30 3)).with_inst 0x69).adc.processor.acc = 5 ↔
       ((0x30 : Nat) &&& FLAG_C) +
         ((Computer.sbc (opState 0xE9 5 0x30 3)).processor.flags &&& FLAG_C) = 1)) :=
  ⟨⟨by decide, by decide, by decide⟩,
    C2_sbc_adc_roundtrip_amended 5 3 0x30 (by decide) (by decide) (by decide)⟩

/-! ### C6 : the disk-controller sector-read protocol -/

theorem read_reg7 (c : Computer) (h : 0 < c.disk.length) :
    c.read 0xFFD7 = ((if c.command ≠ DiskCommand.None then 0x58 else 0x50), c) := by
  simp only [Computer.read, CF_ADDRESS]
  rw [if_pos ⟨h, by omega, by omega⟩]
  rw [if_neg (show ¬((0xFFD7 : Nat) &&& 7 = 0) from by decide)]
  rw [if_pos (show ((0xFFD7 : Nat) &&& 7 = 7) from by decide)]

theorem read_reg0 (c : Computer) (h : 0 < c.disk.length) (hcmd : c.command = DiskCommand.Read)
    (hidx : c.lba * 512 + c.disk_cnt < 4294967296) :
    c.read 0xFFD0 = (c.disk.getD (c.lba * 512 + c.disk_cnt) 0,
      { c with disk_cnt := c.disk_cnt + 1
               command := if 512 < c.disk_cnt + 1 then DiskCommand.None else c.command }) := by
  simp only [Computer.read, CF_ADDRESS]
  rw [if_pos ⟨h, by omega, by omega⟩]
  rw [if_pos (show ((0xFFD0 : Nat) &&& 7 = 0) from by decide)]
  rw [if_pos hcmd, Nat.mod_eq_of_lt hidx]

theorem write_cmd_read (c : Computer) (h : 0 < c.disk.length) :
    c.write 0xFFD7 0x20 = { c with
      command := DiskCommand.Read
      disk_cnt := 0
      data := fun x => if x = 0xFFD7 then 0x20 else c.data x } := by
  simp only [Computer.write, CF_ADDRESS, diskCommandOf,
    show ((0xFFD7 : Nat) &&& 7) = 7 from by decide]
  rw [if_pos ⟨h, by omega, by omega⟩]
  simp


/-- Sector-transfer invariant: starting with an active Read command, byte
counter `k`, LBA 0, and at most `513 - k` further reads, `readSeq` returns the
disk bytes `k, k+1, ...` in order and only advances the counter, clearing the
command exactly when the counter passes 512. -/
theorem readSeq_run (n : Nat) : ∀ (c : Computer), 0 < c.disk.length →
    c.command = DiskCommand.Read → c.lba = 0 → c.disk_cnt + n ≤ 513 → c.disk_cnt ≤ 512 →
    (c.readSeq n).1 = (List.range n).map (fun i => c.disk.getD (c.disk_cnt + i) 0) ∧
    (c.readSeq n).2 = { c with
      disk_cnt := c.disk_cnt + n
      command := if 513 ≤ c.disk_cnt + n then DiskCommand.None else DiskCommand.Read } := by
  induction n with
  | zero =>
    intro c h hcmd hlba hn hcnt
    refine ⟨by simp [Computer.readSeq], ?_⟩
    simp only [Computer.readSeq, Nat.add_zero]
    rw [if_neg (by omega), ← hcmd]
  | succ m ih =>
    intro c h hcmd hlba hn hcnt
    simp only [Computer.readSeq]
    rw [read_reg0 c h hcmd (by omega)]
    by_cases hend : 512 < c.disk_cnt + 1
    · have hm : m = 0 := by omega
      subst hm
      rw [if_pos hend]
      simp only [Computer.readSeq]
      constructor
      · simp [hlba, show List.range 1 = [0] from rfl]
      · rw [if_pos (by omega)]
    · rw [if_neg hend, hcmd]
      obtain ⟨ih1, ih2⟩ := ih
        { c with disk_cnt := c.disk_cnt + 1, command := DiskCommand.Read }
        (by simpa using h) (by rfl) (by simpa using hlba) (by simp; omega) (by simp; omega)
      simp only at ih1 ih2
      constructor
      · rw [ih1]
        simp only [hlba, Nat.zero_mul, Nat.zero_add]
        rw [List.range_succ_eq_map, List.map_cons, List.map_map]
        congr 1
        refine List.map_congr_left fun i _ => ?_
        simp only [Function.comp_apply]
        congr 1
        omega
      · rw [ih2]
        have h1 : c.disk_cnt + 1 + m = c.disk_cnt + (m + 1) := by omega
        rw [h1]
    


/-- C6: with a disk image of at least 513 bytes and LBA 0, issuing command
`0x20` on register 7 makes the next 512 reads of register 0 return the backing
bytes 0..511 of the backing store in order; register 7 reads busy (`0x58`) throughout those
512 reads, and only the 513th read of register 0 clears the command, after
which register 7 reads idle (`0x50`). -/
theorem C6_disk_read_protocol (c : Computer) (hlen : 513 ≤ c.disk.length) (hlba : c.lba = 0) :
    ((c.write 0xFFD7 0x20).readSeq 512).1 =
      (List.range 512).map (fun i => c.disk.getD i 0) ∧
    (∀ k, k ≤ 512 → (((c.write 0xFFD7 0x20).readSeq k).2.read 0xFFD7).1 = 0x58) ∧
    ((c.write 0xFFD7 0x20).readSeq 513).2.command = DiskCommand.None ∧
    (((c.write 0xFFD7 0x20).readSeq 513).2.read 0xFFD7).1 = 0x50 := by
  have h0 : 0 < c.disk.length := by omega
  rw [write_cmd_read c h0]
  refine ⟨?_, ?_, ?_, ?_⟩
  · obtain ⟨l512, _⟩ := readSeq_run 512
      { c with
        command := DiskCommand.Read
        disk_cnt := 0
        data := fun x => if x = 0xFFD7 then 0x20 else c.data x }
      (by simpa using h0) rfl (by simpa using hlba) (by simp) (by simp)
    rw [l512]
    refine List.map_congr_left fun i _ => ?_
    simp
  · intro k hk
    obtain ⟨_, sk⟩ := readSeq_run k
      { c with
        command := DiskCommand.Read
        disk_cnt := 0
        data := fun x => if x = 0xFFD7 then 0x20 else c.data x }
      (by simpa using h0) rfl (by simpa using hlba) (by simp; omega) (by simp)
    rw [sk]
    dsimp only
    rw [if_neg (show ¬((513 : Nat) ≤ 0 + k) from by omega)]
    rw [read_reg7 _ (by simpa using h0)]
    dsimp only
    rw [if_pos (by decide)]
  · obtain ⟨_, s513⟩ := readSeq_run 513
      { c with
        command := DiskCommand.Read
        disk_cnt := 0
        data := fun x => if x = 0xFFD7 then 0x20 else c.data x }
      (by simpa using h0) rfl (by simpa using hlba) (by simp) (by simp)
    rw [s513]
    dsimp only
    rw [if_pos (show (513 : Nat) ≤ 0 + 513 from by omega)]
  · obtain ⟨_, s513⟩ := readSeq_run 513
      { c with
        command := DiskCommand.Read
        disk_cnt := 0
        data := fun x => if x = 0xFFD7 then 0x20 else c.data x }
      (by simpa using h0) rfl (by simpa using hlba) (by simp) (by simp)
    rw [s513]
    dsimp only
    rw [if_pos (show (513 : Nat) ≤ 0 + 513 from by omega)]
    rw [read_reg7 _ (by simpa using h0)]
    dsimp only
    rw [if_neg (by decide)]


/-- A concrete machine for the C6 witness: a 513-byte disk image attached,
LBA 0, no command active. -/
def cexC6 : Computer :=
  { processor := { flags := 0x30, acc := 0, rx := 0, ry := 0, pc := 0x400, sp := 0, clock := 0, inst := 0xEA }
    paused := false
    lba := 0
    disk_cnt := 0
    command := DiskCommand.None
    data := fun _ => 0
    disk := List.replicate 513 7 }

/-- C6 witness: the protocol theorem applied at `cexC6`. -/
theorem C6_disk_read_protocol_witness :
    (513 ≤ cexC6.disk.length ∧ cexC6.lba = 0) ∧
    (((cexC6.write 0xFFD7 0x20).readSeq 512).1 =
       (List.range 512).map (fun i => cexC6.disk.getD i 0) ∧
     (∀ k, k ≤ 512 → (((cexC6.write 0xFFD7 0x20).readSeq k).2.read 0xFFD7).1 = 0x58) ∧
     ((cexC6.write 0xFFD7 0x20).readSeq 513).2.command = DiskCommand.None ∧
     (((cexC6.write 0xFFD7 0x20).readSeq 513).2.read 0xFFD7).1 = 0x50) :=
  have hdisk : cexC6.disk.length = 513 := by
    rw [show cexC6.disk = List.replicate 513 7 from rfl, List.length_replicate]
  ⟨⟨by rw [hdisk], rfl⟩,
   C6_disk_read_protocol cexC6 (by rw [hdisk]) rfl⟩

end Planck
